import Mathlib

/-!
Verification development for `abi_exporter` (`src/main.go`).

The program polls a configured set of endpoints, each of which returns a JSON
body with a nested `DateLimit` timestamp; for each endpoint it publishes to a
Prometheus gauge (keyed by the `url` and `origin_prometheus` labels) the
number of days between `DateLimit` and the current time, rounded to two
decimal places, or the sentinel `-1` on any failure.

The embedding below is shallow: floating-point arithmetic is idealised as
exact rational (`ℚ`) arithmetic, the Prometheus gauge vector is an
association list from label pairs to values, instants are rational seconds
since the Unix epoch, and the effectful parts (HTTP transport, JSON decoding,
reading the configuration file) are represented by explicit outcome data
passed to the pure model.
-/

/-- One monitored endpoint, mirroring `URLConfig` (main.go lines 27-31). -/
structure URLConfig where
  url : String
  label : String
  originPrometheus : String
deriving DecidableEq

/-- The nested `data` object of the remote reply (main.go lines 20-23). -/
structure APIData where
  authorizerDate : String
  dateLimit : String
deriving DecidableEq

/-- The decoded remote reply, mirroring `APIResponse` (main.go lines 17-25).
The Go fields `Message` and `Error` have type `interface{}` (arbitrary JSON,
purely diagnostic); they are modelled opaquely as optional strings. -/
structure APIResponse where
  status : ℤ
  message : Option String
  data : APIData
  error : Option String
deriving DecidableEq

/-- The configuration file contents, mirroring `Config` (main.go lines 33-35). -/
structure Config where
  urls : List URLConfig
deriving DecidableEq

/-- The composite key under which a gauge value is stored: the `url` and
`origin_prometheus` label values (main.go lines 38-44). -/
abbrev Key := String × String

/-- The label pair of one endpoint, as passed to `WithLabelValues`
throughout `main.go`. -/
def keyOf (u : URLConfig) : Key := (u.url, u.originPrometheus)

/-- The gauge vector state: a finite map from label pairs to gauge values,
modelled as an association list with at most one entry per key. -/
abbrev Store := List (Key × ℚ)

/-- Read the current value stored for a key, if any. -/
def storeLookup : Store → Key → Option ℚ
  | [], _ => none
  | e :: rest, k => if e.1 = k then some e.2 else storeLookup rest k

/-- `metric.WithLabelValues(k...).Set(v)`: overwrite the entry for `k` if it
exists, otherwise create it. -/
def storeSet : Store → Key → ℚ → Store
  | [], k, v => [(k, v)]
  | e :: rest, k, v => if e.1 = k then (k, v) :: rest else e :: storeSet rest k v

/-- A parsed `DateLimit` timestamp: the six civil fields of the layout
`2006-01-02 15:04:05` (no time zone designator). -/
structure DateTime where
  year : ℤ
  month : ℕ
  day : ℕ
  hour : ℕ
  minute : ℕ
  second : ℕ
deriving DecidableEq

/-- Gregorian leap-year rule, as validated by Go's `time` package. -/
def isLeapYear (y : ℤ) : Bool := y % 4 == 0 && (y % 100 != 0 || y % 400 == 0)

/-- Number of days in a month, as validated by Go's `time` package. -/
def daysInMonth (y : ℤ) (m : ℕ) : ℕ :=
  match m with
  | 1 => 31 | 2 => if isLeapYear y then 29 else 28 | 3 => 31 | 4 => 30
  | 5 => 31 | 6 => 30 | 7 => 31 | 8 => 31 | 9 => 30 | 10 => 31
  | 11 => 30 | 12 => 31 | _ => 0

/-- Field-range validation performed by Go's `time.Parse`: month `1..12`,
day `1..daysInMonth`, hour `0..23`, minute and second `0..59`. -/
def validDateTime (dt : DateTime) : Bool :=
  1 ≤ dt.month && dt.month ≤ 12 &&
  1 ≤ dt.day && dt.day ≤ daysInMonth dt.year dt.month &&
  dt.hour ≤ 23 && dt.minute ≤ 59 && dt.second ≤ 59

/-- Numeric value of a decimal digit character. -/
def digitVal (c : Char) : ℕ := c.toNat - 48

/-- Model of Go's `time.Parse("2006-01-02 15:04:05", s)` (main.go line 111),
restricted to its field extraction: the string must consist of four year
digits, two month digits, two day digits, two hour digits, two minute digits
and two second digits in the fixed `YYYY-MM-DD HH:MM:SS` punctuation, and the
fields must pass Go's range validation.  (Go additionally tolerates a
one-digit hour for the `15` verb; that leniency is immaterial to every claim
treated here.)  On success the six civil fields are returned; the instant
they denote is a separate question settled by `epochUTC` below. -/
def parseDateTime (s : String) : Option DateTime :=
  match s.data with
  | [y1, y2, y3, y4, p1, mo1, mo2, p2, d1, d2, p3, h1, h2, p4, mi1, mi2, p5, s1, s2] =>
    if p1 == '-' && p2 == '-' && p3 == ' ' && p4 == ':' && p5 == ':' &&
       y1.isDigit && y2.isDigit && y3.isDigit && y4.isDigit &&
       mo1.isDigit && mo2.isDigit && d1.isDigit && d2.isDigit &&
       h1.isDigit && h2.isDigit && mi1.isDigit && mi2.isDigit &&
       s1.isDigit && s2.isDigit then
      let dt : DateTime :=
        { year := (1000 * digitVal y1 + 100 * digitVal y2 + 10 * digitVal y3 + digitVal y4 : ℕ)
          month := 10 * digitVal mo1 + digitVal mo2
          day := 10 * digitVal d1 + digitVal d2
          hour := 10 * digitVal h1 + digitVal h2
          minute := 10 * digitVal mi1 + digitVal mi2
          second := 10 * digitVal s1 + digitVal s2 }
      if validDateTime dt then some dt else none
    else none
  | _ => none

/-- Days from the Unix epoch to a proleptic-Gregorian civil date
(Howard Hinnant's `days_from_civil`; the same civil-to-absolute mapping Go's
`time` package uses). -/
def daysFromCivil (y m d : ℤ) : ℤ :=
  let yAdj := if m ≤ 2 then y - 1 else y
  let era := yAdj / 400
  let yoe := yAdj - era * 400
  let doy := (153 * (m + (if 2 < m then -3 else 9)) + 2) / 5 + d - 1
  let doe := yoe * 365 + yoe / 4 - yoe / 100 + doy
  era * 146097 + doe - 719468

/-- Seconds since the Unix epoch of a parsed timestamp read as UTC.  Go's
`time.Parse` returns a time in UTC when, as here, the layout carries no time
zone indicator; `Time.Sub` then compares absolute instants, so this is the
instant that enters the day computation on main.go line 119. -/
def epochUTC (dt : DateTime) : ℤ :=
  daysFromCivil dt.year dt.month dt.day * 86400 +
    dt.hour * 3600 + dt.minute * 60 + dt.second

/-- Floor of a rational, computed directly on the reduced fraction (Lean's
integer division rounds toward negative infinity, so this is exact). -/
def ratFloor (q : ℚ) : ℤ := q.num / q.den

/-- Model of Go's `math.Round`: nearest integer, halves away from zero. -/
def mathRound (q : ℚ) : ℤ :=
  if 0 ≤ q then ratFloor (q + 1 / 2) else -ratFloor (-q + 1 / 2)

/-- The `round` helper of main.go lines 124-127 (named `roundGo` here because
`round` already denotes Mathlib's rounding function):
`math.Round(value * 10^precision) / 10^precision`. -/
def roundGo (value : ℚ) (precision : ℕ) : ℚ :=
  let scale : ℚ := 10 ^ precision
  (mathRound (value * scale) : ℚ) / scale

/-- `dateLimit.Sub(currentTime).Hours() / 24` (main.go line 119): the signed
number of days from `now` (rational seconds since the epoch) to the parsed
`DateLimit` instant. -/
def daysRemaining (dt : DateTime) (now : ℚ) : ℚ :=
  ((epochUTC dt : ℚ) - now) / 3600 / 24

/-- The effectful prefix of one `fetchData` invocation, reified as data:
either building the POST request failed (main.go line 81), or performing it
failed (line 89), or decoding the JSON body failed (line 97), or a decoded
`APIResponse` was obtained. -/
inductive FetchOutcome where
  | reqError
  | transportError
  | decodeError
  | ok (resp : APIResponse)
deriving DecidableEq

/-- The value `fetchData` publishes for its endpoint given the fetch outcome
and the current time: `-1` on request-construction failure, transport
failure, decode failure, empty `DateLimit`, or unparseable `DateLimit`, and
otherwise the days remaining rounded to two decimal places
(main.go lines 78-121). -/
def fetchValue (now : ℚ) (o : FetchOutcome) : ℚ :=
  match o with
  | .reqError => -1
  | .transportError => -1
  | .decodeError => -1
  | .ok resp =>
    if resp.data.dateLimit = "" then -1
    else
      match parseDateTime resp.data.dateLimit with
      | none => -1
      | some dt => roundGo (daysRemaining dt now) 2

/-- One `fetchData(urlConfig)` invocation (main.go lines 78-121) as a store
transformer: every branch performs exactly one
`metric.WithLabelValues(url, origin).Set(...)` on the invocation's own key. -/
def fetchData (st : Store) (u : URLConfig) (now : ℚ) (o : FetchOutcome) : Store :=
  match o with
  | .reqError => storeSet st (keyOf u) (-1)
  | .transportError => storeSet st (keyOf u) (-1)
  | .decodeError => storeSet st (keyOf u) (-1)
  | .ok resp =>
    if resp.data.dateLimit = "" then storeSet st (keyOf u) (-1)
    else
      match parseDateTime resp.data.dateLimit with
      | none => storeSet st (keyOf u) (-1)
      | some dt => storeSet st (keyOf u) (roundGo (daysRemaining dt now) 2)

/-- `readConfig` (main.go lines 68-76): reading and unmarshalling the file at
`path`.  The file system and the unmarshaller are reified as a map `files`
from paths to successfully decoded configurations (`none` covers both a read
error and a JSON error). -/
def readConfig (files : String → Option Config) (path : String) : Option Config :=
  files path

/-- The startup loop of `func init()` (main.go lines 62-65): for each
configured endpoint, `metric.WithLabelValues(url, origin).Set(-1)`, starting
from the empty gauge vector. -/
def initStore (cfg : Config) : Store :=
  cfg.urls.foldl (fun s u => storeSet s (keyOf u) (-1)) []

/-- The per-endpoint body of the startup loop (main.go line 64), applied to
an arbitrary store state: an unconditional `Set(-1)` on the endpoint's key. -/
def initKey (st : Store) (u : URLConfig) : Store :=
  storeSet st (keyOf u) (-1)

/-- Outcome of a process step: `fatal c` models `log.Fatalf` (which exits the
process with the non-zero code `c = 1`), `ok st` models normal continuation
with gauge state `st`. -/
inductive RunResult where
  | fatal (exitCode : ℕ)
  | ok (store : Store)
deriving DecidableEq

/-- `func init()` (main.go lines 48-66): read the configuration from the file
named by the `-config` flag (default `"config.json"`); on failure
`log.Fatalf` (exit 1); on success initialise every endpoint's gauge to `-1`. -/
def startupInit (files : String → Option Config) (configFlag : String) : RunResult :=
  match readConfig files configFlag with
  | none => .fatal 1
  | some cfg => .ok (initStore cfg)

/-- The polling loop body over one cycle's endpoint list (main.go lines
143-145): invoke `fetchData` once per configured endpoint, in order. -/
def runCycleBody (st : Store) (urls : List URLConfig) (outs : URLConfig → FetchOutcome)
    (now : ℚ) : Store :=
  urls.foldl (fun s u => fetchData s u (now) (outs u)) st

/-- One iteration of the scheduler goroutine (main.go lines 135-146): re-read
the configuration from the literal path `"config.json"` (line 137, ignoring
the `-config` flag); on failure `log.Fatalf` (exit 1); on success run
`fetchData` for every configured endpoint. -/
def schedulerCycle (files : String → Option Config) (outs : URLConfig → FetchOutcome)
    (now : ℚ) (st : Store) : RunResult :=
  match readConfig files "config.json" with
  | none => .fatal 1
  | some cfg => .ok (runCycleBody st cfg.urls outs now)

/-- N independent `fetchData` invocations, one per listed (endpoint, outcome)
pair, starting from the empty store: the store contents produced by one
scheduler cycle observed in isolation. -/
def runMany (l : List (URLConfig × FetchOutcome)) (now : ℚ) : Store :=
  l.foldl (fun s p => fetchData s p.1 now p.2) []

/-- Modelled from the spec: the spec asserts that the parsed `DateLimit`
instant is "interpreted in the process's local time".  Under that reading, a
process whose local zone is `off` seconds east of UTC assigns the civil
fields the absolute instant `epochUTC dt - off`, and the days-remaining
computation becomes the following.  (The code itself uses `time.Parse`,
which assigns UTC; the two are compared in the treatment of claim C5.) -/
def daysRemainingLocalSpec (off : ℤ) (dt : DateTime) (now : ℚ) : ℚ :=
  ((epochUTC dt - off : ℤ) - now) / 3600 / 24

/-- A sequence of `Set` operations, given as a list of key-value pairs; the
startup loop and the polling loop are both instances of this shape. -/
def writeAll (s : Store) (ws : List (Key × ℚ)) : Store :=
  ws.foldl (fun st w => storeSet st w.1 w.2) s

/-! ## Concrete fixtures used to instantiate the theorems -/

/-- Fixture: a first endpoint. -/
def uA : URLConfig := ⟨"https://a.example/check", "service-a", "prod"⟩

/-- Fixture: a second endpoint with a distinct key. -/
def uB : URLConfig := ⟨"https://b.example/check", "service-b", "dr"⟩

/-- Fixture: the civil fields of `2030-01-01 00:00:00`. -/
def dt2030 : DateTime := ⟨2030, 1, 1, 0, 0, 0⟩

/-- Fixture: a well-formed reply whose `DateLimit` is `2030-01-01 00:00:00`
(Unix instant `1893456000` read as UTC). -/
def respGood : APIResponse :=
  ⟨200, none, ⟨"2024-01-01 00:00:00", "2030-01-01 00:00:00"⟩, none⟩

/-- Fixture: a reply with the same `DateLimit` as `respGood` but different
diagnostic fields. -/
def respGoodAlt : APIResponse :=
  ⟨500, some "subsystem warning", ⟨"1999-12-31 23:59:59", "2030-01-01 00:00:00"⟩,
   some "transient"⟩

/-- Fixture: a reply whose `DateLimit` field is empty. -/
def respEmptyDate : APIResponse := ⟨200, none, ⟨"", ""⟩, none⟩

/-- Fixture: a reply whose `DateLimit` does not parse. -/
def respBadDate : APIResponse := ⟨200, none, ⟨"", "tomorrow-ish"⟩, none⟩

/-- Fixture: a two-endpoint configuration with distinct keys. -/
def cfgA : Config := ⟨[uA, uB]⟩

/-- Fixture: a configuration listing only endpoint A. -/
def cfgOnlyA : Config := ⟨[uA]⟩

/-- Fixture: a configuration listing only endpoint B. -/
def cfgOnlyB : Config := ⟨[uB]⟩

/-- Fixture: a file system whose `config.json` holds `cfgA`. -/
def filesA : String → Option Config :=
  fun p => if p = "config.json" then some cfgA else none

/-- Fixture: a file system where the flag-named file `flagged.json` and the
literal `config.json` hold different endpoint sets. -/
def filesSplit : String → Option Config :=
  fun p =>
    if p = "flagged.json" then some cfgOnlyA
    else if p = "config.json" then some cfgOnlyB
    else none

/-- Fixture: every endpoint suffers a transport failure. -/
def outsFail : URLConfig → FetchOutcome := fun _ => .transportError

/-! ## General lemmas about the embedded operations -/

/-- `ratFloor` agrees with the mathematical floor. -/
theorem ratFloor_eq_floor (q : ℚ) : ratFloor q = ⌊q⌋ := Rat.floor_def.symm

/-- `math.Round` on a nonnegative argument is floor of the argument plus a
half. -/
theorem mathRound_of_nonneg {q : ℚ} (h : 0 ≤ q) : mathRound q = ⌊q + 1 / 2⌋ := by
  rw [mathRound, if_pos h, ratFloor_eq_floor]

/-- `math.Round` on a negative argument mirrors the nonnegative case through
zero (halves away from zero). -/
theorem mathRound_of_neg {q : ℚ} (h : ¬ 0 ≤ q) : mathRound q = -⌊-q + 1 / 2⌋ := by
  rw [mathRound, if_neg h, ratFloor_eq_floor]

/-- A value just written is read back. -/
theorem storeLookup_storeSet_self (s : Store) (k : Key) (v : ℚ) :
    storeLookup (storeSet s k v) k = some v := by
  induction s with
  | nil => simp [storeSet, storeLookup]
  | cons e rest ih =>
    by_cases h : e.1 = k <;> simp [storeSet, storeLookup, h, ih]

/-- Writing one key leaves every other key's entry unchanged. -/
theorem storeLookup_storeSet_ne (s : Store) {k k' : Key} (v : ℚ) (h : k' ≠ k) :
    storeLookup (storeSet s k v) k' = storeLookup s k' := by
  have hkk : ¬ (k = k') := fun h' => h h'.symm
  induction s with
  | nil => simp [storeSet, storeLookup, hkk]
  | cons e rest ih =>
    by_cases he : e.1 = k
    · have he' : ¬ (e.1 = k') := by rw [he]; exact hkk
      simp only [storeSet, if_pos he, storeLookup, if_neg hkk, if_neg he']
    · simp only [storeSet, if_neg he, storeLookup, ih]

/-- Writing the same value to the same key twice is the same as writing it
once. -/
theorem storeSet_storeSet_same (s : Store) (k : Key) (v : ℚ) :
    storeSet (storeSet s k v) k v = storeSet s k v := by
  induction s with
  | nil => simp [storeSet]
  | cons e rest ih =>
    by_cases h : e.1 = k
    · simp [storeSet, h]
    · simp [storeSet, h, ih]

/-- Writing an absent key appends one entry. -/
theorem length_storeSet_of_none (s : Store) (k : Key) (v : ℚ)
    (h : storeLookup s k = none) : (storeSet s k v).length = s.length + 1 := by
  induction s with
  | nil => simp [storeSet]
  | cons e rest ih =>
    by_cases he : e.1 = k
    · simp [storeLookup, he] at h
    · simp only [storeLookup, if_neg he] at h
      simp [storeSet, he, ih h]

theorem writeAll_nil (s : Store) : writeAll s [] = s := rfl

theorem writeAll_cons (s : Store) (w : Key × ℚ) (ws : List (Key × ℚ)) :
    writeAll s (w :: ws) = writeAll (storeSet s w.1 w.2) ws := rfl

/-- A key none of the writes touches keeps its entry. -/
theorem storeLookup_writeAll_of_not_written (ws : List (Key × ℚ)) (s : Store) (k : Key)
    (h : ∀ w ∈ ws, w.1 ≠ k) :
    storeLookup (writeAll s ws) k = storeLookup s k := by
  induction ws generalizing s with
  | nil => rfl
  | cons w rest ih =>
    rw [writeAll_cons, ih _ (fun w' hw' => h w' (List.mem_cons_of_mem w hw')),
      storeLookup_storeSet_ne _ _ (fun hk => h w (List.mem_cons_self w rest) hk.symm)]

/-- If every write carries the same value `c` and the key already holds `c`,
it still holds `c` afterwards. -/
theorem storeLookup_writeAll_of_const (ws : List (Key × ℚ)) (s : Store) (k : Key) (c : ℚ)
    (hc : ∀ w ∈ ws, w.2 = c) (h : storeLookup s k = some c) :
    storeLookup (writeAll s ws) k = some c := by
  induction ws generalizing s with
  | nil => exact h
  | cons w rest ih =>
    rw [writeAll_cons]
    refine ih _ (fun w' hw' => hc w' (List.mem_cons_of_mem w hw')) ?_
    by_cases hk : w.1 = k
    · rw [← hk, storeLookup_storeSet_self, hc w (List.mem_cons_self w rest)]
    · rw [storeLookup_storeSet_ne _ _ (fun h' => hk h'.symm), h]

/-- If every write carries the value `c` and the key is among the written
keys, it holds `c` afterwards. -/
theorem storeLookup_writeAll_of_written_const (ws : List (Key × ℚ)) (s : Store) (k : Key)
    (c : ℚ) (hk : k ∈ ws.map Prod.fst) (hc : ∀ w ∈ ws, w.2 = c) :
    storeLookup (writeAll s ws) k = some c := by
  induction ws generalizing s with
  | nil => simp at hk
  | cons w rest ih =>
    rw [writeAll_cons]
    rcases List.mem_cons.mp hk with h1 | h1
    · refine storeLookup_writeAll_of_const rest _ _ _
        (fun w' hw' => hc w' (List.mem_cons_of_mem w hw')) ?_
      rw [h1, storeLookup_storeSet_self, hc w (List.mem_cons_self w rest)]
    · exact ih _ h1 (fun w' hw' => hc w' (List.mem_cons_of_mem w hw'))

/-- With pairwise-distinct keys, each written key ends up holding exactly its
own written value. -/
theorem storeLookup_writeAll_of_nodup (ws : List (Key × ℚ)) (s : Store) (k : Key) (v : ℚ)
    (hnd : (ws.map Prod.fst).Nodup) (hmem : (k, v) ∈ ws) :
    storeLookup (writeAll s ws) k = some v := by
  induction ws generalizing s with
  | nil => simp at hmem
  | cons w rest ih =>
    rw [writeAll_cons]
    rw [List.map_cons, List.nodup_cons] at hnd
    rcases List.mem_cons.mp hmem with h1 | h1
    · have hk1 : w.1 = k := by rw [← h1]
      have hv1 : w.2 = v := by rw [← h1]
      have hnw : ∀ w' ∈ rest, w'.1 ≠ k := by
        intro w' hw' hkw'
        apply hnd.1
        have hm : w'.1 ∈ List.map Prod.fst rest := List.mem_map_of_mem Prod.fst hw'
        rw [hkw', ← hk1] at hm
        exact hm
      rw [storeLookup_writeAll_of_not_written rest _ _ hnw, hk1, hv1,
        storeLookup_storeSet_self]
    · exact ih _ hnd.2 h1

/-- With pairwise-distinct keys all absent from the starting store, the
writes add exactly one entry each. -/
theorem length_writeAll (ws : List (Key × ℚ)) (s : Store)
    (hnd : (ws.map Prod.fst).Nodup) (habs : ∀ w ∈ ws, storeLookup s w.1 = none) :
    (writeAll s ws).length = s.length + ws.length := by
  induction ws generalizing s with
  | nil => rfl
  | cons w rest ih =>
    rw [List.map_cons, List.nodup_cons] at hnd
    have habs' : ∀ w' ∈ rest, storeLookup (storeSet s w.1 w.2) w'.1 = none := by
      intro w' hw'
      have hne : w'.1 ≠ w.1 := by
        intro h
        apply hnd.1
        have hm : w'.1 ∈ List.map Prod.fst rest := List.mem_map_of_mem Prod.fst hw'
        rw [h] at hm
        exact hm
      rw [storeLookup_storeSet_ne _ _ hne]
      exact habs w' (List.mem_cons_of_mem w hw')
    rw [writeAll_cons, ih _ hnd.2 habs',
      length_storeSet_of_none _ _ _ (habs w (List.mem_cons_self w rest))]
    simp only [List.length_cons]
    omega

/-- Every branch of `fetchData` is one `Set` of `fetchValue` on the
invocation's own key. -/
theorem fetchData_eq_set (st : Store) (u : URLConfig) (now : ℚ) (o : FetchOutcome) :
    fetchData st u now o = storeSet st (keyOf u) (fetchValue now o) := by
  cases o with
  | reqError => rfl
  | transportError => rfl
  | decodeError => rfl
  | ok resp =>
    by_cases h : resp.data.dateLimit = ""
    · simp [fetchData, fetchValue, h]
    · cases hp : parseDateTime resp.data.dateLimit <;>
        simp [fetchData, fetchValue, h, hp]

/-- The startup loop is the write sequence putting `-1` at every configured
key. -/
theorem initStore_eq_writeAll (cfg : Config) :
    initStore cfg = writeAll [] (cfg.urls.map fun u => (keyOf u, (-1 : ℚ))) := by
  show cfg.urls.foldl (fun s u => storeSet s (keyOf u) (-1)) [] = _
  rw [writeAll, List.foldl_map]

/-- Two folds with pointwise-equal step functions agree. -/
theorem foldl_congr_fun {α β : Type} (l : List α) (f g : β → α → β) (s : β)
    (h : ∀ s a, f s a = g s a) : l.foldl f s = l.foldl g s := by
  induction l generalizing s with
  | nil => rfl
  | cons a rest ih => rw [List.foldl_cons, List.foldl_cons, h, ih]

/-- The cycle loop is the write sequence putting each endpoint's
`fetchValue` at its key. -/
theorem runCycleBody_eq_writeAll (st : Store) (urls : List URLConfig)
    (outs : URLConfig → FetchOutcome) (now : ℚ) :
    runCycleBody st urls outs now =
      writeAll st (urls.map fun u => (keyOf u, fetchValue now (outs u))) := by
  rw [runCycleBody, writeAll, List.foldl_map]
  exact foldl_congr_fun urls _ _ st (fun s u => fetchData_eq_set s u now (outs u))

/-- `runMany` is the write sequence putting each listed outcome's value at
its endpoint's key, starting from the empty store. -/
theorem runMany_eq_writeAll (l : List (URLConfig × FetchOutcome)) (now : ℚ) :
    runMany l now = writeAll [] (l.map fun p => (keyOf p.1, fetchValue now p.2)) := by
  rw [runMany, writeAll, List.foldl_map]
  exact foldl_congr_fun l _ _ [] (fun s p => fetchData_eq_set s p.1 now p.2)

/-- The empty string does not parse as a timestamp. -/
theorem parseDateTime_empty : parseDateTime "" = none := by decide

/-- A successfully parsed `DateLimit` is in particular nonempty. -/
theorem ne_empty_of_parse {s : String} {dt : DateTime}
    (h : parseDateTime s = some dt) : s ≠ "" := by
  intro he
  rw [he, parseDateTime_empty] at h
  exact Option.noConfusion h

/-- The value published on the fully successful path. -/
theorem fetchValue_ok_of_parse {resp : APIResponse} {dt : DateTime} (now : ℚ)
    (h : parseDateTime resp.data.dateLimit = some dt) :
    fetchValue now (.ok resp) = roundGo (daysRemaining dt now) 2 := by
  rw [fetchValue, if_neg (ne_empty_of_parse h), h]

/-- The round-half policy of `math.Round`, characterised at every exact
halfway point: halves round away from zero. -/
theorem mathRound_add_half (n : ℤ) :
    mathRound ((n : ℚ) + 1 / 2) = if 0 ≤ n then n + 1 else n := by
  by_cases h : 0 ≤ n
  · have hq : (0 : ℚ) ≤ (n : ℚ) + 1 / 2 := by
      have hn : (0 : ℚ) ≤ (n : ℚ) := by exact_mod_cast h
      linarith
    rw [mathRound_of_nonneg hq, if_pos h]
    have he : (n : ℚ) + 1 / 2 + 1 / 2 = ((n + 1 : ℤ) : ℚ) := by push_cast; ring
    rw [he, Int.floor_intCast]
  · have hn : n ≤ -1 := by omega
    have hq : ¬ (0 : ℚ) ≤ (n : ℚ) + 1 / 2 := by
      rw [not_le]
      have hn' : (n : ℚ) ≤ -1 := by exact_mod_cast hn
      linarith
    rw [mathRound_of_neg hq, if_neg h]
    have he : -((n : ℚ) + 1 / 2) + 1 / 2 = ((-n : ℤ) : ℚ) := by push_cast; ring
    rw [he, Int.floor_intCast, neg_neg]

/-- The spec's halfway test at `1.005`: the code rounds it to `1.01`. -/
theorem roundGo_pos_halfway : roundGo (201 / 200) 2 = 101 / 100 := by
  have h : (0 : ℚ) ≤ 201 / 200 * 10 ^ 2 := by norm_num
  simp only [roundGo]
  rw [mathRound_of_nonneg h]
  norm_num

/-- The mirrored halfway test at `-1.005`: the code rounds it to `-1.01`,
the same away-from-zero policy. -/
theorem roundGo_neg_halfway : roundGo (-(201 / 200)) 2 = -(101 / 100) := by
  have h : ¬ (0 : ℚ) ≤ -(201 / 200) * 10 ^ 2 := by norm_num
  simp only [roundGo]
  rw [mathRound_of_neg h]
  norm_num

/-- Any quantity at most `-0.005` is still strictly negative after rounding
to two decimal places. -/
theorem roundGo_neg_of_le {q : ℚ} (h : q ≤ -(1 / 200)) : roundGo q 2 < 0 := by
  have h2 : q * 10 ^ 2 ≤ -(1 / 2) := by nlinarith
  have hneg : ¬ (0 : ℚ) ≤ q * 10 ^ 2 := by rw [not_le]; linarith
  simp only [roundGo]
  rw [mathRound_of_neg hneg]
  have hfl : (1 : ℤ) ≤ ⌊-(q * 10 ^ 2) + 1 / 2⌋ := by
    rw [Int.le_floor]
    push_cast
    linarith
  have hfl' : (1 : ℚ) ≤ (⌊-(q * 10 ^ 2) + 1 / 2⌋ : ℚ) := by exact_mod_cast hfl
  have hlt : ((-⌊-(q * 10 ^ 2) + 1 / 2⌋ : ℤ) : ℚ) < 0 := by push_cast; linarith
  have hpos : (0 : ℚ) < 10 ^ 2 := by norm_num
  exact div_neg_of_neg_of_pos hlt hpos

/-! ## The claims -/

/-- Claim C1: for every endpoint invocation in which the request succeeds,
the body decodes, and the `DateLimit` string is nonempty and parses against
the `YYYY-MM-DD HH:MM:SS` layout, the value published under the endpoint's
(address, originLabel) key equals `round((parsedDate - now).hours / 24, 2)`,
rounded to two decimal places under the single consistent
round-half-away-from-zero policy (`1.005` rounds to `1.01` and `-1.005` to
`-1.01`), negative values meaning already expired. -/
theorem spec_c1 (st : Store) (u : URLConfig) (now : ℚ) (resp : APIResponse)
    (dt : DateTime) (hp : parseDateTime resp.data.dateLimit = some dt) :
    storeLookup (fetchData st u now (.ok resp)) (keyOf u) =
      some (roundGo (daysRemaining dt now) 2) ∧
    (∀ n : ℤ, mathRound ((n : ℚ) + 1 / 2) = if 0 ≤ n then n + 1 else n) ∧
    roundGo (201 / 200) 2 = 101 / 100 ∧
    roundGo (-(201 / 200)) 2 = -(101 / 100) := by
  refine ⟨?_, mathRound_add_half, roundGo_pos_halfway, roundGo_neg_halfway⟩
  rw [fetchData_eq_set, storeLookup_storeSet_self, fetchValue_ok_of_parse now hp]

/-- Witness for C1 at a concrete input: `DateLimit = "2030-01-01 00:00:00"`
(epoch second 1893456000) fetched half a day earlier. -/
theorem spec_c1_witness :
    storeLookup (fetchData [] uA 1893412800 (.ok respGood)) (keyOf uA) =
      some (roundGo (daysRemaining dt2030 1893412800) 2) ∧
    (∀ n : ℤ, mathRound ((n : ℚ) + 1 / 2) = if 0 ≤ n then n + 1 else n) ∧
    roundGo (201 / 200) 2 = 101 / 100 ∧
    roundGo (-(201 / 200)) 2 = -(101 / 100) :=
  spec_c1 [] uA 1893412800 respGood dt2030 (by decide)

/-- Claim C2: each of the failure cases - building the request fails, the
transport fails, the body does not decode, the `DateLimit` field is empty,
the `DateLimit` string does not parse - independently makes the Collector
publish the sentinel `-1` under its endpoint's key and return; no
per-endpoint error reaches the scheduler: a cycle whose configuration loads
always continues normally, whatever the endpoint outcomes. -/
theorem spec_c2 (st : Store) (u : URLConfig) (now : ℚ) (resp : APIResponse)
    (files : String → Option Config) (outs : URLConfig → FetchOutcome) (cfg : Config) :
    storeLookup (fetchData st u now .reqError) (keyOf u) = some (-1) ∧
    storeLookup (fetchData st u now .transportError) (keyOf u) = some (-1) ∧
    storeLookup (fetchData st u now .decodeError) (keyOf u) = some (-1) ∧
    (resp.data.dateLimit = "" →
      storeLookup (fetchData st u now (.ok resp)) (keyOf u) = some (-1)) ∧
    (parseDateTime resp.data.dateLimit = none →
      storeLookup (fetchData st u now (.ok resp)) (keyOf u) = some (-1)) ∧
    (readConfig files "config.json" = some cfg →
      schedulerCycle files outs now st = .ok (runCycleBody st cfg.urls outs now)) := by
  refine ⟨?_, ?_, ?_, ?_, ?_, ?_⟩
  · rw [fetchData_eq_set, storeLookup_storeSet_self]
    rfl
  · rw [fetchData_eq_set, storeLookup_storeSet_self]
    rfl
  · rw [fetchData_eq_set, storeLookup_storeSet_self]
    rfl
  · intro he
    rw [fetchData_eq_set, storeLookup_storeSet_self, fetchValue, if_pos he]
  · intro hn
    rw [fetchData_eq_set, storeLookup_storeSet_self]
    by_cases he : resp.data.dateLimit = ""
    · rw [fetchValue, if_pos he]
    · rw [fetchValue, if_neg he, hn]
  · intro hc
    unfold schedulerCycle
    rw [hc]

/-- Witness for C2: an empty `DateLimit` (whose string also fails to parse),
a transport failure, and a loadable configuration all at concrete inputs. -/
theorem spec_c2_witness :
    storeLookup (fetchData [] uA 0 .transportError) (keyOf uA) = some (-1) ∧
    storeLookup (fetchData [] uA 0 (.ok respEmptyDate)) (keyOf uA) = some (-1) ∧
    storeLookup (fetchData [] uA 0 (.ok respBadDate)) (keyOf uA) = some (-1) ∧
    schedulerCycle filesA outsFail 0 [] = .ok (runCycleBody [] cfgA.urls outsFail 0) :=
  ⟨(spec_c2 [] uA 0 respEmptyDate filesA outsFail cfgA).2.1,
   (spec_c2 [] uA 0 respEmptyDate filesA outsFail cfgA).2.2.2.1 rfl,
   (spec_c2 [] uA 0 respBadDate filesA outsFail cfgA).2.2.2.2.1 (by decide),
   (spec_c2 [] uA 0 respEmptyDate filesA outsFail cfgA).2.2.2.2.2 (by decide)⟩

/-- Claim C3: immediately after startup and before any fetch, the store
holds the sentinel `-1` under every configured endpoint's key, and (for a
configuration whose keys are pairwise distinct, as the spec requires of
valid configurations) exactly one entry per descriptor.  In the program,
`func init()` runs to completion before `main` binds the scrape port, so
this is the state in which the scrape endpoint first becomes reachable. -/
theorem spec_c3 (cfg : Config) :
    (∀ u ∈ cfg.urls, storeLookup (initStore cfg) (keyOf u) = some (-1)) ∧
    ((cfg.urls.map keyOf).Nodup → (initStore cfg).length = cfg.urls.length) := by
  constructor
  · intro u hu
    rw [initStore_eq_writeAll]
    apply storeLookup_writeAll_of_written_const
    · rw [List.map_map]
      exact List.mem_map_of_mem _ hu
    · intro w hw
      obtain ⟨u', hu', rfl⟩ := List.mem_map.mp hw
      rfl
  · intro hnd
    have h1 : ((cfg.urls.map fun u => (keyOf u, (-1 : ℚ))).map Prod.fst).Nodup := by
      rw [List.map_map]
      exact hnd
    have h2 : ∀ w ∈ cfg.urls.map fun u => (keyOf u, (-1 : ℚ)),
        storeLookup [] w.1 = none := fun w _ => rfl
    rw [initStore_eq_writeAll, length_writeAll _ _ h1 h2]
    simp

/-- Witness for C3 on the concrete two-endpoint configuration with distinct
keys: two entries, each holding `-1`. -/
theorem spec_c3_witness :
    (initStore cfgA).length = cfgA.urls.length ∧
    storeLookup (initStore cfgA) (keyOf uA) = some (-1) ∧
    storeLookup (initStore cfgA) (keyOf uB) = some (-1) :=
  ⟨(spec_c3 cfgA).2 (by decide),
   (spec_c3 cfgA).1 uA (by decide),
   (spec_c3 cfgA).1 uB (by decide)⟩

/-- Counterexample to C4 as stated: the initialization the code performs is
an unconditional `Set(-1)`; on a store whose key already holds the real
measurement `5`, it does set the sentinel, changing the existing value -
contradicting "sets the value to the sentinel only if the key has no
existing entry ... never changes a value already set by a real
measurement". -/
theorem spec_c4_counterexample :
    storeLookup [(keyOf uA, 5)] (keyOf uA) = some 5 ∧
    storeLookup (initKey [(keyOf uA, 5)] uA) (keyOf uA) = some (-1) ∧
    ((-1 : ℚ) ≠ 5) := by
  refine ⟨?_, ?_, by norm_num⟩
  · simp [storeLookup]
  · rw [initKey, storeLookup_storeSet_self]

/-- Claim C4 (amended): the store's per-key initialization unconditionally
sets the sentinel `-1` (overwriting any existing entry, including one set by
a real measurement); calling it twice in succession for the same key is
idempotent - the second call is a no-op. -/
theorem spec_c4_amended (st : Store) (u : URLConfig) :
    initKey (initKey st u) u = initKey st u ∧
    storeLookup (initKey st u) (keyOf u) = some (-1) :=
  ⟨storeSet_storeSet_same st (keyOf u) (-1),
   storeLookup_storeSet_self st (keyOf u) (-1)⟩

/-- Counterexample to C5 as stated: the claim reads the parsed timestamp in
the process's local time, but `time.Parse` with a zone-less layout reads it
as UTC.  Concretely, for a process whose local zone is UTC+1 (offset 3600 s),
`DateLimit = "2030-01-01 00:00:00"` fetched at epoch second 1893412800 is
published as `0.5`, while the local-time reading the claim prescribes would
give `0.46`. -/
theorem spec_c5_counterexample :
    storeLookup (fetchData [] uA 1893412800 (.ok respGood)) (keyOf uA) = some (1 / 2) ∧
    roundGo (daysRemainingLocalSpec 3600 dt2030 1893412800) 2 = 23 / 50 ∧
    ((1 : ℚ) / 2 ≠ 23 / 50) := by
  have hE : epochUTC dt2030 = 1893456000 := by decide
  refine ⟨?_, ?_, by norm_num⟩
  · rw [fetchData_eq_set, storeLookup_storeSet_self,
      fetchValue_ok_of_parse _ (by decide : parseDateTime respGood.data.dateLimit = some dt2030)]
    have hd : daysRemaining dt2030 1893412800 = 1 / 2 := by
      simp only [daysRemaining]
      rw [hE]
      norm_num
    rw [hd]
    have h0 : (0 : ℚ) ≤ 1 / 2 * 10 ^ 2 := by norm_num
    simp only [roundGo]
    rw [mathRound_of_nonneg h0]
    norm_num
  · have hd : daysRemainingLocalSpec 3600 dt2030 1893412800 = 11 / 24 := by
      simp only [daysRemainingLocalSpec]
      rw [hE]
      norm_num
    rw [hd]
    have h0 : (0 : ℚ) ≤ 11 / 24 * 10 ^ 2 := by norm_num
    simp only [roundGo]
    rw [mathRound_of_nonneg h0]
    norm_num

/-- Claim C5 (amended): the `DateLimit` string is parsed against the fixed
layout `YYYY-MM-DD HH:MM:SS` with no timezone designator, and the resulting
instant is interpreted as UTC - equivalently, as the local-time reading
would be only at local offset `0` - so the computed days-remaining is
relative to the string read as UTC, not as process-local time. -/
theorem spec_c5_amended (st : Store) (u : URLConfig) (now : ℚ) (resp : APIResponse)
    (dt : DateTime) (hp : parseDateTime resp.data.dateLimit = some dt) :
    storeLookup (fetchData st u now (.ok resp)) (keyOf u) =
      some (roundGo (((epochUTC dt : ℚ) - now) / 3600 / 24) 2) ∧
    storeLookup (fetchData st u now (.ok resp)) (keyOf u) =
      some (roundGo (daysRemainingLocalSpec 0 dt now) 2) := by
  have h1 : storeLookup (fetchData st u now (.ok resp)) (keyOf u) =
      some (roundGo (daysRemaining dt now) 2) := by
    rw [fetchData_eq_set, storeLookup_storeSet_self, fetchValue_ok_of_parse now hp]
  constructor
  · exact h1
  · rw [h1]
    have h0 : daysRemainingLocalSpec 0 dt now = daysRemaining dt now := by
      simp [daysRemainingLocalSpec, daysRemaining]
    rw [h0]

/-- Witness for the amended C5 at a concrete successful parse. -/
theorem spec_c5_amended_witness :
    storeLookup (fetchData [] uA 1893412800 (.ok respGood)) (keyOf uA) =
      some (roundGo (((epochUTC dt2030 : ℚ) - 1893412800) / 3600 / 24) 2) ∧
    storeLookup (fetchData [] uA 1893412800 (.ok respGood)) (keyOf uA) =
      some (roundGo (daysRemainingLocalSpec 0 dt2030 1893412800) 2) :=
  spec_c5_amended [] uA 1893412800 respGood dt2030 (by decide)

/-- Claim C6: every Collector invocation writes exactly one value, under its
own endpoint's key (every other key's entry is untouched); N invocations for
N endpoints with pairwise-distinct keys yield exactly N entries, each
holding its own endpoint's outcome. -/
theorem spec_c6 (st : Store) (u : URLConfig) (now : ℚ) (o : FetchOutcome) (k : Key)
    (l : List (URLConfig × FetchOutcome)) (hk : k ≠ keyOf u)
    (hnd : (l.map fun p => keyOf p.1).Nodup) :
    storeLookup (fetchData st u now o) (keyOf u) = some (fetchValue now o) ∧
    storeLookup (fetchData st u now o) k = storeLookup st k ∧
    (runMany l now).length = l.length ∧
    ∀ p ∈ l, storeLookup (runMany l now) (keyOf p.1) = some (fetchValue now p.2) := by
  refine ⟨?_, ?_, ?_, ?_⟩
  · rw [fetchData_eq_set, storeLookup_storeSet_self]
  · rw [fetchData_eq_set, storeLookup_storeSet_ne _ _ hk]
  · have h1 : ((l.map fun p => (keyOf p.1, fetchValue now p.2)).map Prod.fst).Nodup := by
      rw [List.map_map]
      exact hnd
    have h2 : ∀ w ∈ l.map fun p => (keyOf p.1, fetchValue now p.2),
        storeLookup [] w.1 = none := fun w _ => rfl
    rw [runMany_eq_writeAll, length_writeAll _ _ h1 h2]
    simp
  · intro p hp
    rw [runMany_eq_writeAll]
    apply storeLookup_writeAll_of_nodup
    · rw [List.map_map]
      exact hnd
    · exact List.mem_map_of_mem _ hp

/-- Witness for C6: two endpoints with distinct keys, one succeeding and one
failing; each key carries exactly its own outcome and the store has exactly
two entries. -/
theorem spec_c6_witness :
    storeLookup (fetchData [] uA 0 .transportError) (keyOf uA) =
      some (fetchValue 0 .transportError) ∧
    storeLookup (fetchData [] uA 0 .transportError) (keyOf uB) = storeLookup [] (keyOf uB) ∧
    (runMany [(uA, FetchOutcome.ok respGood), (uB, FetchOutcome.transportError)] 0).length = 2 ∧
    storeLookup (runMany [(uA, FetchOutcome.ok respGood), (uB, FetchOutcome.transportError)] 0)
      (keyOf uB) = some (fetchValue 0 FetchOutcome.transportError) :=
  ⟨(spec_c6 [] uA 0 .transportError (keyOf uB)
      [(uA, .ok respGood), (uB, .transportError)] (by decide) (by decide)).1,
   (spec_c6 [] uA 0 .transportError (keyOf uB)
      [(uA, .ok respGood), (uB, .transportError)] (by decide) (by decide)).2.1,
   (spec_c6 [] uA 0 .transportError (keyOf uB)
      [(uA, .ok respGood), (uB, .transportError)] (by decide) (by decide)).2.2.1,
   (spec_c6 [] uA 0 .transportError (keyOf uB)
      [(uA, .ok respGood), (uB, .transportError)] (by decide) (by decide)).2.2.2
     (uB, .transportError) (by decide)⟩

/-- Claim C7: a configuration load failure - at startup or on any later
scheduler cycle - terminates the process via `log.Fatalf` with the non-zero
exit code 1, while a cycle whose configuration loads completes normally
whatever the per-endpoint outcomes: the scheduler never terminates due to
endpoint-level errors. -/
theorem spec_c7 (files : String → Option Config) (p : String)
    (outs : URLConfig → FetchOutcome) (now : ℚ) (st : Store) (cfg : Config) :
    (readConfig files p = none → startupInit files p = .fatal 1) ∧
    (readConfig files "config.json" = none →
      schedulerCycle files outs now st = .fatal 1) ∧
    (readConfig files "config.json" = some cfg →
      schedulerCycle files outs now st = .ok (runCycleBody st cfg.urls outs now)) ∧
    (1 : ℕ) ≠ 0 := by
  refine ⟨?_, ?_, ?_, one_ne_zero⟩
  · intro h
    unfold startupInit
    rw [h]
  · intro h
    unfold schedulerCycle
    rw [h]
  · intro h
    unfold schedulerCycle
    rw [h]

/-- Witness for C7: a file system with no readable configuration is fatal at
startup and in a later cycle; a loadable one lets the cycle complete even
when every endpoint fails. -/
theorem spec_c7_witness :
    startupInit (fun _ => none) "flagged.json" = .fatal 1 ∧
    schedulerCycle (fun _ => none) outsFail 0 [] = .fatal 1 ∧
    schedulerCycle filesA outsFail 0 [] = .ok (runCycleBody [] cfgA.urls outsFail 0) :=
  ⟨(spec_c7 (fun _ => none) "flagged.json" outsFail 0 [] cfgA).1 rfl,
   (spec_c7 (fun _ => none) "flagged.json" outsFail 0 [] cfgA).2.1 rfl,
   (spec_c7 filesA "flagged.json" outsFail 0 [] cfgA).2.2.1 (by decide)⟩

/-- Counterexample to C8 as stated: a `DateLimit` 60 seconds in the past is
an instant in the past, yet the published value is `0.00` - not negative -
because `-60` seconds is `-0.00069` days, which rounds to two decimals as
zero. -/
theorem spec_c8_counterexample :
    parseDateTime respGood.data.dateLimit = some dt2030 ∧
    (epochUTC dt2030 : ℚ) < 1893456060 ∧
    storeLookup (fetchData [] uA 1893456060 (.ok respGood)) (keyOf uA) = some 0 ∧
    ¬ ((0 : ℚ) < 0) := by
  have hE : epochUTC dt2030 = 1893456000 := by decide
  refine ⟨by decide, ?_, ?_, by norm_num⟩
  · rw [hE]
    norm_num
  · rw [fetchData_eq_set, storeLookup_storeSet_self,
      fetchValue_ok_of_parse _ (by decide : parseDateTime respGood.data.dateLimit = some dt2030)]
    have hd : daysRemaining dt2030 1893456060 = -(1 / 1440) := by
      simp only [daysRemaining]
      rw [hE]
      norm_num
    rw [hd]
    have hneg : ¬ (0 : ℚ) ≤ -(1 / 1440) * 10 ^ 2 := by norm_num
    simp only [roundGo]
    rw [mathRound_of_neg hneg]
    norm_num

/-- Claim C8 (amended): for every endpoint whose fetched `DateLimit` parses
to an instant at least 432 seconds (0.005 days) in the past, the published
value is the rounded days-remaining and it is strictly negative: expired
certificates are representable as negative numbers, never clamped to zero
and never replaced by the sentinel.  (For past instants within 432 seconds
of `now` the rounded days-remaining is published unchanged as well, but it
rounds to `0.00`.) -/
theorem spec_c8_amended (st : Store) (u : URLConfig) (now : ℚ) (resp : APIResponse)
    (dt : DateTime) (hp : parseDateTime resp.data.dateLimit = some dt)
    (hpast : (epochUTC dt : ℚ) ≤ now - 432) :
    storeLookup (fetchData st u now (.ok resp)) (keyOf u) =
      some (roundGo (daysRemaining dt now) 2) ∧
    roundGo (daysRemaining dt now) 2 < 0 := by
  constructor
  · rw [fetchData_eq_set, storeLookup_storeSet_self, fetchValue_ok_of_parse now hp]
  · apply roundGo_neg_of_le
    simp only [daysRemaining]
    rw [div_div]
    have h : (epochUTC dt : ℚ) - now ≤ -432 := by linarith
    have h2 : ((epochUTC dt : ℚ) - now) / (3600 * 24) ≤ (-432 : ℚ) / (3600 * 24) :=
      (div_le_div_iff_of_pos_right (by norm_num)).mpr h
    have h3 : ((-432 : ℚ)) / (3600 * 24) = -(1 / 200) := by norm_num
    rw [h3] at h2
    exact h2

/-- Witness for the amended C8: a `DateLimit` half a day in the past is
published as the negative rounded value `-0.5`. -/
theorem spec_c8_amended_witness :
    storeLookup (fetchData [] uA 1893499200 (.ok respGood)) (keyOf uA) =
      some (roundGo (daysRemaining dt2030 1893499200) 2) ∧
    roundGo (daysRemaining dt2030 1893499200) 2 < 0 :=
  spec_c8_amended [] uA 1893499200 respGood dt2030 (by decide)
    (by rw [show epochUTC dt2030 = 1893456000 from by decide]; norm_num)

/-- Claim C9 (implicit): startup initialization reads the file named by the
`-config` flag, but every scheduler cycle re-reads endpoints from the fixed
literal path `config.json`; when the flag names any other file, the
endpoints polled after startup come from a different source than those
initialized to the sentinel. -/
theorem spec_c9 (files : String → Option Config) (p : String) (cfgS cfgC : Config)
    (outs : URLConfig → FetchOutcome) (now : ℚ) (st : Store)
    (hS : readConfig files p = some cfgS)
    (hC : readConfig files "config.json" = some cfgC) :
    startupInit files p = .ok (initStore cfgS) ∧
    schedulerCycle files outs now st = .ok (runCycleBody st cfgC.urls outs now) := by
  constructor
  · unfold startupInit
    rw [hS]
  · unfold schedulerCycle
    rw [hC]

/-- Witness for C9: with the flag naming `flagged.json` (holding only
endpoint A) while `config.json` holds only endpoint B, startup initializes
endpoint A alone, yet the cycle polls endpoint B alone - the initialized key
set and the polled key set diverge. -/
theorem spec_c9_witness :
    startupInit filesSplit "flagged.json" = .ok (initStore cfgOnlyA) ∧
    schedulerCycle filesSplit outsFail 0 [] =
      .ok (runCycleBody [] cfgOnlyB.urls outsFail 0) ∧
    storeLookup (initStore cfgOnlyA) (keyOf uB) = none ∧
    storeLookup (runCycleBody [] cfgOnlyB.urls outsFail 0) (keyOf uB) = some (-1) := by
  have h := spec_c9 filesSplit "flagged.json" cfgOnlyA cfgOnlyB outsFail 0 []
    (by decide) (by decide)
  exact ⟨h.1, h.2, by decide, by decide⟩

/-- Claim C10 (implicit): the published value depends only on the
`DateLimit` string and the current time - two decoded replies agreeing on
`Data.DateLimit` but differing arbitrarily in `Status`, `Message`, `Error`
or `Data.AuthorizerDate` publish the same value for the endpoint's key. -/
theorem spec_c10 (st : Store) (u : URLConfig) (now : ℚ) (r r' : APIResponse)
    (h : r.data.dateLimit = r'.data.dateLimit) :
    fetchValue now (.ok r) = fetchValue now (.ok r') ∧
    storeLookup (fetchData st u now (.ok r)) (keyOf u) =
      storeLookup (fetchData st u now (.ok r')) (keyOf u) := by
  have hv : fetchValue now (.ok r) = fetchValue now (.ok r') := by
    simp only [fetchValue, h]
  refine ⟨hv, ?_⟩
  rw [fetchData_eq_set, fetchData_eq_set, storeLookup_storeSet_self,
    storeLookup_storeSet_self, hv]

/-- Witness for C10: two concrete replies sharing `DateLimit` but differing
in status, message, error and authorizer date publish the same value (and
the two replies really differ). -/
theorem spec_c10_witness :
    fetchValue 0 (.ok respGood) = fetchValue 0 (.ok respGoodAlt) ∧
    storeLookup (fetchData [] uA 0 (.ok respGood)) (keyOf uA) =
      storeLookup (fetchData [] uA 0 (.ok respGoodAlt)) (keyOf uA) ∧
    respGood ≠ respGoodAlt :=
  ⟨(spec_c10 [] uA 0 respGood respGoodAlt (by decide)).1,
   (spec_c10 [] uA 0 respGood respGoodAlt (by decide)).2,
   by decide⟩
